import Mathlib

/-
Verification of the rss-telegram-bot polling-and-delivery pipeline.

Shallow embedding of the Go sources:
  * internal/rss/fetcher.go        (GoFeedFetcher.Fetch, GetNewItems)
  * internal/telegram/client.go    (Client.Send, SplitMessage, limiter constants)
  * internal/formatter/formatter.go (DefaultFormatter.FormatItem, sanitization order)
  * internal/scheduler/scheduler.go (FeedScheduler.runPendingTasks)
  * app worker (FeedWorker.ProcessFeed) and database FeedStore operations
    (UpdateFeedLastProcessed, AddProcessedItem, IsItemProcessed).

External collaborators (SHA-256, the bluemonday sanitizer, the emoji library,
the Telegram HTTP API, the rate limiters' clocks) are modelled as explicit
function parameters; everything written by the repository itself is translated
directly from the source.
-/

namespace RSSBot

/-! ## Small string helpers mirroring the Go standard library calls used -/

/-- Whether `needle` occurs as a contiguous run inside `hay` (Go strings.Contains). -/
def containsFrom (needle : List Char) : List Char → Bool
  | [] => needle.isEmpty
  | c :: rest => needle.isPrefixOf (c :: rest) || containsFrom needle rest

/-- Go strings.Contains on strings. -/
def strContains (hay needle : String) : Bool :=
  containsFrom needle.toList hay.toList

/-- ASCII whitespace as used by Go strings.TrimSpace on typical feed text. -/
def isSpaceChar (c : Char) : Bool :=
  c = ' ' || c.toNat = 9 || c.toNat = 10 || c.toNat = 13 || c.toNat = 11 || c.toNat = 12

/-- Go strings.TrimSpace. -/
def trimSpace (s : String) : String :=
  String.mk (((s.toList.dropWhile isSpaceChar).reverse.dropWhile isSpaceChar).reverse)

/-- Go html.EscapeString on one character. -/
def escapeChar (c : Char) : String :=
  if c = '&' then "&amp;"
  else if c.toNat = 39 then "&#39;"
  else if c = '<' then "&lt;"
  else if c = '>' then "&gt;"
  else if c.toNat = 34 then "&#34;"
  else String.mk [c]

/-- Go html.EscapeString. -/
def escapeHTML (s : String) : String :=
  String.join (s.toList.map escapeChar)

/-- Go strings.ReplaceAll(s, " ", "_") as used for hashtag cleaning. -/
def replaceSpaces (s : String) : String :=
  String.mk (s.toList.map (fun c => if c = ' ' then '_' else c))

/-- Go strings.TrimPrefix(s, "#"). -/
def trimHashPrefixChar (s : String) : String :=
  match s.toList with
  | [] => ""
  | c :: rest => if c = '#' then String.mk rest else String.mk (c :: rest)

/-! ## Item model (gofeed uniform item as consumed by the pipeline) -/

/-- A parsed feed item.  Timestamps (`PublishedParsed`, `UpdatedParsed`) are
modelled as `Option Int` (seconds); `author` is the optional author name. -/
structure Item where
  guid : String
  link : String
  title : String
  content : String
  description : String
  author : Option String
  publishedParsed : Option Int
  updatedParsed : Option Int
deriving Repr, DecidableEq, Inhabited

/-- Effective timestamp used by GetNewItems' sort: PublishedParsed if present,
else UpdatedParsed. -/
def effDate (it : Item) : Option Int :=
  match it.publishedParsed with
  | some d => some d
  | none => it.updatedParsed

/-- The comparator handed to sort.SliceStable in GetNewItems (fetcher.go
lines 126-136): descending by effective date; items without a date sort after
those with one; two dateless items keep their original order. -/
def itemLess (a b : Item) : Bool :=
  match effDate a, effDate b with
  | none, none => false
  | none, some _ => false
  | some _, none => true
  | some x, some y => decide (y < x)

/-- Item identifier: GUID if non-empty else Link (fetcher.go lines 154-157,
worker lines 214-215). -/
def identifier (it : Item) : String :=
  if it.guid = "" then it.link else it.guid

/-! ## Stable sort modelling Go sort.SliceStable -/

/-- Insert `x` into an already sorted list, keeping `x` before every element
`y` it is not strictly greater than (`less y x = false`); since `foldr` feeds
elements right to left, each inserted element originally precedes everything
already in the accumulator, so this realizes the stability contract of
sort.SliceStable. -/
def insertStable (less : α → α → Bool) (x : α) : List α → List α
  | [] => [x]
  | y :: ys => if less y x then y :: insertStable less x ys else x :: y :: ys

/-- Stable sort by a strict comparator (model of sort.SliceStable). -/
def stableSort (less : α → α → Bool) (l : List α) : List α :=
  l.foldr (insertStable less) []

/-! ## GetNewItems (internal/rss/fetcher.go lines 117-183) -/

/-- Model of rss.GetNewItems.  `hash` stands for the SHA-256 hex digest
(fmt.Sprintf of sha256.Sum256); `seen` is the isItemProcessedFunc closure (its
storage-error path is omitted: the predicate is total).  Returns the new items
oldest-first and the high-water hash of the newest item of the whole fetch. -/
def GetNewItems (hash : String → String) (items : List Item) (seen : String → Bool) :
    List Item × String :=
  let sorted := stableSort itemLess items
  let latestItemHash :=
    match sorted with
    | [] => ""
    | newest :: _ => if identifier newest = "" then "" else hash (identifier newest)
  let newItems := sorted.filter (fun it =>
    identifier it != "" && !(seen (hash (identifier it))))
  (newItems.reverse, latestItemHash)

/-! ## Lemmas about the stable sort -/

theorem insertStable_perm (less : α → α → Bool) (x : α) :
    ∀ l : List α, (insertStable less x l).Perm (x :: l)
  | [] => List.Perm.refl _
  | y :: ys => by
    simp only [insertStable]
    split
    · exact ((insertStable_perm less x ys).cons y).trans (List.Perm.swap x y ys)
    · exact List.Perm.refl _

theorem stableSort_perm (less : α → α → Bool) : ∀ l : List α, (stableSort less l).Perm l
  | [] => List.Perm.refl _
  | x :: xs => by
    have h1 : stableSort less (x :: xs) = insertStable less x (stableSort less xs) := rfl
    rw [h1]
    exact (insertStable_perm less x (stableSort less xs)).trans
      ((stableSort_perm less xs).cons x)

theorem pairwise_insertStable (less : α → α → Bool)
    (hasym : ∀ a b, less a b = true → less b a = false)
    (htrans : ∀ a b c, less b a = false → less c b = false → less c a = false)
    (x : α) : ∀ l : List α, l.Pairwise (fun a b => less b a = false) →
      (insertStable less x l).Pairwise (fun a b => less b a = false)
  | [], _ => by simp [insertStable]
  | y :: ys, h => by
    rcases List.pairwise_cons.mp h with ⟨hy, hys⟩
    by_cases hxy : less y x = true
    · have hrec := pairwise_insertStable less hasym htrans x ys hys
      have hmem : ∀ b ∈ insertStable less x ys, less b y = false := by
        intro b hb
        rcases List.mem_cons.mp ((insertStable_perm less x ys).mem_iff.mp hb) with rfl | hbys
        · exact hasym _ _ hxy
        · exact hy b hbys
      simpa [insertStable, hxy] using List.pairwise_cons.mpr ⟨hmem, hrec⟩
    · have hyx : less y x = false := by simpa using hxy
      have hmem : ∀ b ∈ y :: ys, less b x = false := by
        intro b hb
        rcases List.mem_cons.mp hb with rfl | hbys
        · exact hyx
        · exact htrans x y b hyx (hy b hbys)
      simpa [insertStable, hyx] using List.pairwise_cons.mpr ⟨hmem, h⟩

theorem pairwise_stableSort (less : α → α → Bool)
    (hasym : ∀ a b, less a b = true → less b a = false)
    (htrans : ∀ a b c, less b a = false → less c b = false → less c a = false) :
    ∀ l : List α, (stableSort less l).Pairwise (fun a b => less b a = false)
  | [] => by simp [stableSort]
  | x :: xs =>
    pairwise_insertStable less hasym htrans x (stableSort less xs)
      (pairwise_stableSort less hasym htrans xs)

theorem itemLess_asymm (a b : Item) : itemLess a b = true → itemLess b a = false := by
  cases ha : effDate a <;> cases hb : effDate b <;>
    simp [itemLess, ha, hb] <;> try omega

theorem itemLess_irrefl (a : Item) : itemLess a a = false := by
  cases ha : effDate a <;> simp [itemLess, ha]

theorem itemLess_trans_neg (a b c : Item) :
    itemLess b a = false → itemLess c b = false → itemLess c a = false := by
  cases ha : effDate a <;> cases hb : effDate b <;> cases hc : effDate c <;>
    simp [itemLess, ha, hb, hc] <;> try omega


/-! ## Claim C5 -/

/-- C5: for every non-empty parsed feed, GetNewItems (SelectNew) with the
constantly-false seen predicate returns exactly the items having a non-empty
GUID-or-link identifier, ordered oldest-first by effective timestamp
(published_at, else updated_at; in the internal newest-first sort items
without a timestamp come after those with one, hence first in the returned
oldest-first list), and the returned high-water fingerprint is the hash of
the identifier of a newest item of the input (no input item is strictly
newer), independent of the seen predicate. -/
theorem getNewItems_all_unseen_spec (hash : String → String) (items : List Item)
    (hne : items ≠ []) :
    ((GetNewItems hash items (fun _ => false)).1).Perm
        (items.filter (fun it => identifier it != "")) ∧
    ((GetNewItems hash items (fun _ => false)).1).Pairwise
        (fun a b => itemLess a b = false) ∧
    (∃ m, m ∈ items ∧ (∀ x ∈ items, itemLess x m = false) ∧
      (GetNewItems hash items (fun _ => false)).2 =
        (if identifier m = "" then "" else hash (identifier m))) ∧
    (∀ seen : String → Bool, (GetNewItems hash items seen).2 =
      (GetNewItems hash items (fun _ => false)).2) := by
  have hperm := stableSort_perm itemLess items
  have hpair := pairwise_stableSort itemLess itemLess_asymm itemLess_trans_neg items
  refine ⟨?_, ?_, ?_, ?_⟩
  · simp only [GetNewItems, Bool.not_false, Bool.and_true]
    exact (List.reverse_perm _).trans (hperm.filter _)
  · simp only [GetNewItems]
    exact List.pairwise_reverse.mpr (hpair.filter _)
  · rcases hs : stableSort itemLess items with _ | ⟨m, rest⟩
    · exact absurd (List.Perm.eq_nil ((hs ▸ hperm).symm)) hne
    · refine ⟨m, ?_, ?_, ?_⟩
      · exact hperm.mem_iff.mp (by rw [hs]; exact List.mem_cons_self m rest)
      · intro x hx
        have hxs : x ∈ stableSort itemLess items := hperm.mem_iff.mpr hx
        rw [hs] at hxs hpair
        rcases List.mem_cons.mp hxs with rfl | hxr
        · exact itemLess_irrefl x
        · exact (List.pairwise_cons.mp hpair).1 x hxr
      · simp only [GetNewItems, hs]
  · intro seen
    rfl

/-- Concrete feed used to witness C5. -/
def w5items : List Item :=
  [{ guid := "a", link := "", title := "t1", content := "", description := "",
     author := none, publishedParsed := some 1, updatedParsed := none },
   { guid := "", link := "", title := "skipped", content := "", description := "",
     author := none, publishedParsed := none, updatedParsed := none },
   { guid := "b", link := "", title := "t2", content := "", description := "",
     author := none, publishedParsed := some 2, updatedParsed := none }]

/-- Hash stand-in used by witnesses (the pipeline never inspects digests). -/
def wHash (s : String) : String := String.append "h" s

theorem getNewItems_all_unseen_spec_witness :
    w5items ≠ [] ∧
    (((GetNewItems wHash w5items (fun _ => false)).1).Perm
        (w5items.filter (fun it => identifier it != "")) ∧
    ((GetNewItems wHash w5items (fun _ => false)).1).Pairwise
        (fun a b => itemLess a b = false) ∧
    (∃ m, m ∈ w5items ∧ (∀ x ∈ w5items, itemLess x m = false) ∧
      (GetNewItems wHash w5items (fun _ => false)).2 =
        (if identifier m = "" then "" else wHash (identifier m))) ∧
    (∀ seen : String → Bool, (GetNewItems wHash w5items seen).2 =
      (GetNewItems wHash w5items (fun _ => false)).2)) :=
  ⟨by decide, getNewItems_all_unseen_spec wHash w5items (by decide)⟩

/-! ## Message parts (pkg/interfaces/interfaces.go) -/

/-- interfaces.FormattedMessagePart. -/
structure FormattedMessagePart where
  text : String
  parseMode : String
  photoURL : String := ""
  documentURL : String := ""
  documentCaption : String := ""
  documentName : String := ""
deriving Repr, DecidableEq, Inhabited

/-! ## Feed store state and operations (database FeedStore) -/

/-- The slice of one feed's database row the worker reads and writes, plus
that feed's processed_items rows (fingerprints, in insertion order). -/
structure FeedState where
  lastProcessedItemGUIDHash : Option String
  httpEtag : Option String
  httpLastModified : Option String
  lastFetchedAt : Option Int
  processedItems : List String
deriving Repr, DecidableEq, Inhabited

/-- FeedStore.UpdateFeedLastProcessed: one UPDATE writing all four columns,
with last_fetched_at set to the call time. -/
def UpdateFeedLastProcessed (now : Int) (st : FeedState)
    (lastItemHash etag lastModified : Option String) : FeedState :=
  { st with
    lastProcessedItemGUIDHash := lastItemHash
    httpEtag := etag
    httpLastModified := lastModified
    lastFetchedAt := some now }

/-- FeedStore.AddProcessedItem: INSERT OR IGNORE of (feed_id, fingerprint). -/
def AddProcessedItem (st : FeedState) (h : String) : FeedState :=
  if st.processedItems.contains h then st
  else { st with processedItems := st.processedItems ++ [h] }

/-- FeedStore.IsItemProcessed: existence query on processed_items. -/
def IsItemProcessed (st : FeedState) (h : String) : Bool :=
  st.processedItems.contains h

/-! ## FeedWorker.ProcessFeed (app worker, src/unnamed/part_002) -/

/-- Result of the fetcher as consumed by the worker: `feed = none` models a
304 Not Modified response. -/
structure FetchResult where
  feed : Option (List Item)
  newEtag : Option String
  newLastModified : Option String
deriving Repr, DecidableEq, Inhabited

/-- How one ProcessFeed run ended (mirrors the worker's return points). -/
inductive RunOutcome where
  | notModified
  | noNewItems
  | tokenError
  | dispatchError (failed : Item)
  | success
deriving Repr, DecidableEq, Inhabited

/-- Observable result of one ProcessFeed run: the feed's final store state and
the items actually handed to the notifier, in order. -/
structure RunResult where
  state : FeedState
  dispatched : List Item
  outcome : RunOutcome
deriving Repr, DecidableEq, Inhabited

/-- The per-item loop of ProcessFeed (worker lines 174-222).  `format` models
FormatItem (`none` = formatting error, which the loop skips with continue);
`send` models the notifier call outcome; in dry-run the send is skipped but
AddProcessedItem still runs, exactly as in the source.  A failed send returns
immediately, before AddProcessedItem for the failed item.  Returns the state,
the dispatched items, lastSuccessfullyProcessedItemHash, and the item whose
dispatch failed, if any. -/
def processItemsLoop (hash : String → String) (dryRun : Bool)
    (format : Item → Option (List FormattedMessagePart)) (send : Item → Bool) :
    List Item → FeedState → List Item → String →
      FeedState × List Item × String × Option Item
  | [], st, disp, lastH => (st, disp, lastH, none)
  | item :: rest, st, disp, lastH =>
    match format item with
    | none => processItemsLoop hash dryRun format send rest st disp lastH
    | some _parts =>
      if dryRun then
        processItemsLoop hash dryRun format send rest
          (AddProcessedItem st (hash (identifier item))) disp (hash (identifier item))
      else if send item then
        processItemsLoop hash dryRun format send rest
          (AddProcessedItem st (hash (identifier item))) (disp ++ [item])
          (hash (identifier item))
      else
        (st, disp, lastH, some item)

/-- FeedWorker.ProcessFeed after a successful reload and fetch (worker lines
107-239).  `tokenOk = false` models GetTokenByBotID failing or the feed having
no bot id (both return with no persistence); `now` is the wall-clock instant
UpdateFeedLastProcessed stamps into last_fetched_at. -/
def ProcessFeed (hash : String → String) (dryRun : Bool) (now : Int)
    (format : Item → Option (List FormattedMessagePart)) (send : Item → Bool)
    (tokenOk : Bool) (st : FeedState) (fetchResult : FetchResult) : RunResult :=
  match fetchResult.feed with
  | none =>
    { state := UpdateFeedLastProcessed now st st.lastProcessedItemGUIDHash
        st.httpEtag st.httpLastModified
      dispatched := []
      outcome := .notModified }
  | some items =>
    let res := GetNewItems hash items (fun h => IsItemProcessed st h)
    let newItems := res.1
    let latestItemInFeedHash := res.2
    if newItems = [] then
      let hashToStore := if latestItemInFeedHash != "" then some latestItemInFeedHash
        else st.lastProcessedItemGUIDHash
      { state := UpdateFeedLastProcessed now st hashToStore
          fetchResult.newEtag fetchResult.newLastModified
        dispatched := []
        outcome := .noNewItems }
    else if !tokenOk then
      { state := st, dispatched := [], outcome := .tokenError }
    else
      match processItemsLoop hash dryRun format send newItems st [] "" with
      | (st2, disp, _lastH, some failedItem) =>
        { state := st2, dispatched := disp, outcome := .dispatchError failedItem }
      | (st2, disp, lastH, none) =>
        let finalHashToStore :=
          if lastH != "" then some lastH
          else if latestItemInFeedHash != "" then some latestItemInFeedHash
          else st.lastProcessedItemGUIDHash
        { state := UpdateFeedLastProcessed now st2 finalHashToStore
            fetchResult.newEtag fetchResult.newLastModified
          dispatched := disp
          outcome := .success }

/-! ## Lemmas about the worker loop -/

theorem addProcessedItem_meta (st : FeedState) (h : String) :
    (AddProcessedItem st h).lastProcessedItemGUIDHash = st.lastProcessedItemGUIDHash ∧
    (AddProcessedItem st h).httpEtag = st.httpEtag ∧
    (AddProcessedItem st h).httpLastModified = st.httpLastModified ∧
    (AddProcessedItem st h).lastFetchedAt = st.lastFetchedAt := by
  simp only [AddProcessedItem]
  split <;> simp

theorem foldl_addProcessedItem_meta (hs : List String) : ∀ st : FeedState,
    ((hs.foldl AddProcessedItem st).lastProcessedItemGUIDHash =
        st.lastProcessedItemGUIDHash ∧
     (hs.foldl AddProcessedItem st).httpEtag = st.httpEtag ∧
     (hs.foldl AddProcessedItem st).httpLastModified = st.httpLastModified ∧
     (hs.foldl AddProcessedItem st).lastFetchedAt = st.lastFetchedAt) := by
  induction hs with
  | nil => intro st; simp
  | cons h t ih =>
    intro st
    have hmeta := addProcessedItem_meta st h
    have hrec := ih (AddProcessedItem st h)
    simp only [List.foldl_cons]
    exact ⟨hrec.1.trans hmeta.1, hrec.2.1.trans hmeta.2.1,
      hrec.2.2.1.trans hmeta.2.2.1, hrec.2.2.2.trans hmeta.2.2.2⟩

theorem processItemsLoop_fail (hash : String → String)
    (format : Item → Option (List FormattedMessagePart)) (send : Item → Bool) :
    ∀ (l : List Item) (st : FeedState) (disp : List Item) (lastH : String)
      (st2 : FeedState) (disp2 : List Item) (lastH2 : String) (it : Item),
      processItemsLoop hash false format send l st disp lastH =
        (st2, disp2, lastH2, some it) →
      send it = false ∧ (format it).isSome ∧
      ∃ pre post, l = pre ++ it :: post ∧
        disp2 = disp ++ pre.filter (fun i => (format i).isSome) ∧
        (∀ i ∈ pre, (format i).isSome → send i = true) ∧
        st2 = ((pre.filter (fun i => (format i).isSome)).map
          (fun d => hash (identifier d))).foldl AddProcessedItem st
  | [], st, disp, lastH, st2, disp2, lastH2, it => by
    intro h
    simp [processItemsLoop] at h
  | item :: rest, st, disp, lastH, st2, disp2, lastH2, it => by
    intro h
    simp only [processItemsLoop] at h
    cases hf : format item with
    | none =>
      rw [hf] at h
      obtain ⟨h1, h2, pre, post, hl, hd, hall, hst⟩ :=
        processItemsLoop_fail hash format send rest st disp lastH st2 disp2 lastH2 it h
      refine ⟨h1, h2, item :: pre, post, by simp [hl], ?_, ?_, ?_⟩
      · simp [hd, hf]
      · intro i hi hfi
        rcases List.mem_cons.mp hi with rfl | hir
        · exact absurd hfi (by simp [hf])
        · exact hall i hir hfi
      · simp [hst, hf]
    | some parts =>
      rw [hf] at h
      rw [if_neg (by simp : ¬ ((false : Bool) = true))] at h
      by_cases hs : send item = true
      · rw [if_pos hs] at h
        obtain ⟨h1, h2, pre, post, hl, hd, hall, hst⟩ :=
          processItemsLoop_fail hash format send rest
            (AddProcessedItem st (hash (identifier item))) (disp ++ [item])
            (hash (identifier item)) st2 disp2 lastH2 it h
        refine ⟨h1, h2, item :: pre, post, by simp [hl], ?_, ?_, ?_⟩
        · simp [hd, hf]
        · intro i hi hfi
          rcases List.mem_cons.mp hi with rfl | hir
          · exact hs
          · exact hall i hir hfi
        · simp [hst, hf]
      · rw [if_neg hs] at h
        simp only [Prod.mk.injEq, Option.some.injEq] at h
        obtain ⟨h1, h2, h3, h4⟩ := h
        subst h1 h2 h3 h4
        exact ⟨by simpa using hs, by simp [hf], [], rest, by simp, by simp, by simp, by simp⟩

/-! ## Claims C1 and C2 -/

/-- Single-item feed and fixtures shared by the worker witnesses. -/
def wItem1 : Item :=
  { guid := "g", link := "", title := "t", content := "c", description := "d",
    author := none, publishedParsed := some 1, updatedParsed := none }

/-- One formatted text part used by the worker witnesses. -/
def wPart : FormattedMessagePart :=
  { text := "m", parseMode := "HTML" }

/-- Formatter stand-in that always succeeds with one part. -/
def wFormat : Item → Option (List FormattedMessagePart) := fun _ => some [wPart]

/-- Pre-run store row with a stale etag, used by the worker witnesses. -/
def wStale : FeedState :=
  { lastProcessedItemGUIDHash := none, httpEtag := some "E0",
    httpLastModified := none, lastFetchedAt := none, processedItems := [] }

/-- Fetch result carrying one new item and fresh cache headers. -/
def wFetch1 : FetchResult :=
  { feed := some [wItem1], newEtag := some "E1", newLastModified := some "L1" }

/-- C1: the claim is violated by the code.  In dry-run mode, with one new
item, nothing is dispatched (even a failing notifier is never called), yet
the run still inserts a processed_items row for the item and persists
last_processed_item_hash, the new cache headers and last_fetched_at — the
worker's loop calls AddProcessedItem and the final UpdateFeedLastProcessed
outside the dry-run guard.  This contradicts the spec and the repository's
own `--dry-run` help text ("simulate actions without making changes"). -/
theorem processFeed_dryRun_writes_rows :
    ProcessFeed wHash true 100 wFormat (fun _ => false) true
      { lastProcessedItemGUIDHash := none, httpEtag := none,
        httpLastModified := none, lastFetchedAt := none, processedItems := [] }
      wFetch1 =
    { state := { lastProcessedItemGUIDHash := some "hg", httpEtag := some "E1",
                 httpLastModified := some "L1", lastFetchedAt := some 100,
                 processedItems := ["hg"] },
      dispatched := [], outcome := .success } := by decide

/-- C2 is false as stated: with one new item whose dispatch fails, the claim
requires persisting the high-water fingerprint together with last_fetched_at
and the new cache headers, but the run returns with the feed row completely
unchanged (etag still "E0", last_fetched_at still unset, no hash stored). -/
theorem processFeed_dispatchError_counterexample :
    ProcessFeed wHash false 100 wFormat (fun _ => false) true wStale wFetch1 =
    { state := wStale, dispatched := [], outcome := .dispatchError wItem1 } := by
  decide

/-- C2 (amended): when dispatching item `it` fails in a non-dry run, the
worker stops immediately — `it` and every later new item are not dispatched,
every earlier formatted item was sent successfully and got its
processed_items row — but, diverging from the original claim, the worker
returns without calling UpdateFeedLastProcessed: last_processed_item_hash,
etag, last_modified and last_fetched_at all keep their pre-run values. -/
theorem processFeed_dispatchError_spec (hash : String → String) (now : Int)
    (format : Item → Option (List FormattedMessagePart)) (send : Item → Bool)
    (tokenOk : Bool) (st : FeedState) (fetchResult : FetchResult)
    (items : List Item) (it : Item)
    (hfeed : fetchResult.feed = some items)
    (hout : (ProcessFeed hash false now format send tokenOk st fetchResult).outcome =
      .dispatchError it) :
    send it = false ∧
    (∀ d ∈ (ProcessFeed hash false now format send tokenOk st fetchResult).dispatched,
      send d = true) ∧
    (∃ pre post,
      (GetNewItems hash items (fun h => IsItemProcessed st h)).1 = pre ++ it :: post ∧
      (ProcessFeed hash false now format send tokenOk st fetchResult).dispatched =
        pre.filter (fun i => (format i).isSome)) ∧
    ((ProcessFeed hash false now format send tokenOk st fetchResult).state =
      ((ProcessFeed hash false now format send tokenOk st fetchResult).dispatched.map
        (fun d => hash (identifier d))).foldl AddProcessedItem st) ∧
    (ProcessFeed hash false now format send tokenOk st fetchResult).state.lastProcessedItemGUIDHash
      = st.lastProcessedItemGUIDHash ∧
    (ProcessFeed hash false now format send tokenOk st fetchResult).state.httpEtag
      = st.httpEtag ∧
    (ProcessFeed hash false now format send tokenOk st fetchResult).state.httpLastModified
      = st.httpLastModified ∧
    (ProcessFeed hash false now format send tokenOk st fetchResult).state.lastFetchedAt
      = st.lastFetchedAt := by
  simp only [ProcessFeed, hfeed] at hout ⊢
  by_cases hnew : (GetNewItems hash items (fun h => IsItemProcessed st h)).1 = []
  · simp [hnew] at hout
  · by_cases htok : tokenOk
    · rcases hloop : processItemsLoop hash false format send
        (GetNewItems hash items (fun h => IsItemProcessed st h)).1 st [] "" with
        ⟨st2, disp, lastH2, failed⟩
      simp only [hnew, htok, Bool.not_true, Bool.false_eq_true, if_false] at hout ⊢
      cases failed with
      | none =>
        rw [hloop] at hout
        simp at hout
      | some failedItem =>
        rw [hloop] at hout
        dsimp only at hout ⊢
        simp only [RunOutcome.dispatchError.injEq] at hout
        subst hout
        obtain ⟨h1, h2, pre, post, hl, hd, hall, hst⟩ :=
          processItemsLoop_fail hash format send _ st [] "" st2 disp lastH2 _ hloop
        have hdisp : disp = pre.filter (fun i => (format i).isSome) := by simpa using hd
        have hmeta := foldl_addProcessedItem_meta
          ((pre.filter (fun i => (format i).isSome)).map (fun d => hash (identifier d))) st
        refine ⟨h1, ?_, ⟨pre, post, hl, hdisp⟩, ?_, ?_, ?_, ?_, ?_⟩
        · intro d hdm
          rw [hdisp] at hdm
          rcases List.mem_filter.mp hdm with ⟨hdp, hdf⟩
          exact hall d hdp hdf
        · rw [hdisp, hst]
        · rw [hst]; exact hmeta.1
        · rw [hst]; exact hmeta.2.1
        · rw [hst]; exact hmeta.2.2.1
        · rw [hst]; exact hmeta.2.2.2
    · simp [hnew, htok] at hout

/-! ## GoFeedFetcher.Fetch (internal/rss/fetcher.go lines 20-114) -/

def maxFetchRetries : Nat := 3

def initialRetryDelay : Nat := 2

def maxRetryDelay : Nat := 30

/-- Outcome of one HTTP attempt as the fetch loop distinguishes them: a
transport error from httpClient.Do (with whether errors.Is reports
context.Canceled or context.DeadlineExceeded), or a response carrying its
status code, ETag and Last-Modified headers ("" when absent) and the gofeed
parse result of its body (`none` = parse error; only consulted on 200). -/
inductive AttemptOutcome where
  | transportError (ctxErr : Bool)
  | response (status : Nat) (etag lastModified : String) (parsed : Option (List Item))

/-- The ways Fetch returns an error. -/
inductive FetchErr where
  | canceledDuringBackoff
  | contextTransport
  | permanentStatus (status : Nat)
  | allAttemptsFailed
deriving Repr, DecidableEq

/-- The retry loop of GoFeedFetcher.Fetch.  `out n` is attempt n's outcome and
`cancelBackoff n` whether ctx.Done fires during the backoff preceding attempt
n; the returned list collects the backoff delays actually slept (seconds).
`fuel` counts remaining loop iterations (maxFetchRetries + 1 - attempt).
Before every attempt after the first the loop sleeps currentDelay and then
doubles it, capping at maxRetryDelay; a 304 echoes the request's cache
values; any non-200 status in [400, 500) returns at once; other non-200
statuses, parse errors and non-context transport errors fall through to the
next attempt. -/
def fetchAux (out : Nat → AttemptOutcome) (cancelBackoff : Nat → Bool)
    (etag lastModified : Option String) :
    Nat → Nat → Nat → List Nat → Except FetchErr FetchResult × List Nat
  | 0, _, _, waits => (.error .allAttemptsFailed, waits)
  | fuel + 1, attempt, curDelay, waits =>
    if attempt > 0 && cancelBackoff attempt then
      (.error .canceledDuringBackoff, waits)
    else
      let waits2 := if attempt > 0 then waits ++ [curDelay] else waits
      let nextDelay := if attempt > 0 then min (curDelay * 2) maxRetryDelay else curDelay
      match out attempt with
      | .transportError ctxErr =>
        if ctxErr then (.error .contextTransport, waits2)
        else fetchAux out cancelBackoff etag lastModified fuel (attempt + 1) nextDelay waits2
      | .response status etagH lmH parsed =>
        if status = 304 then
          (.ok { feed := none, newEtag := etag, newLastModified := lastModified }, waits2)
        else if status ≠ 200 then
          if 400 ≤ status ∧ status < 500 then
            (.error (.permanentStatus status), waits2)
          else
            fetchAux out cancelBackoff etag lastModified fuel (attempt + 1) nextDelay waits2
        else
          match parsed with
          | none =>
            fetchAux out cancelBackoff etag lastModified fuel (attempt + 1) nextDelay waits2
          | some items =>
            (.ok { feed := some items, newEtag := some etagH,
                   newLastModified := some lmH }, waits2)

/-- GoFeedFetcher.Fetch: at most maxFetchRetries + 1 attempts, starting with
no backoff and initialRetryDelay as the first retry's sleep. -/
def Fetch (out : Nat → AttemptOutcome) (cancelBackoff : Nat → Bool)
    (etag lastModified : Option String) : Except FetchErr FetchResult × List Nat :=
  fetchAux out cancelBackoff etag lastModified (maxFetchRetries + 1) 0 initialRetryDelay []

/-- Whether the first list is an initial run of the second. -/
def initialSegment : List Nat → List Nat → Bool
  | [], _ => true
  | _ :: _, [] => false
  | a :: l, b :: m => a = b && initialSegment l m

/-- The doubling-with-cap delay sequence starting from `d`. -/
def geomDelays (d : Nat) : Nat → List Nat
  | 0 => []
  | n + 1 => d :: geomDelays (min (d * 2) maxRetryDelay) n

theorem fetchAux_waits (out : Nat → AttemptOutcome) (cancelBackoff : Nat → Bool)
    (etag lm : Option String) : ∀ (fuel attempt d : Nat) (waits : List Nat),
    1 ≤ attempt →
    ∃ tail, (fetchAux out cancelBackoff etag lm fuel attempt d waits).2 = waits ++ tail ∧
      initialSegment tail (geomDelays d fuel) = true
  | 0, attempt, d, waits, _ => ⟨[], by simp [fetchAux, initialSegment]⟩
  | fuel + 1, attempt, d, waits, hatt => by
    simp only [fetchAux]
    have hpos : attempt > 0 := hatt
    by_cases hc : cancelBackoff attempt = true
    · refine ⟨[], ?_⟩
      simp [hpos, hc, initialSegment]
    · have hcond : (decide (attempt > 0) && cancelBackoff attempt) = false := by
        simp [hc]
      rw [if_neg (by simp [hcond, hc])]
      simp only [if_pos hpos]
      have hstep : ∀ r : Except FetchErr FetchResult × List Nat,
          r.2 = waits ++ [d] →
          ∃ tail, r.2 = waits ++ tail ∧
            initialSegment tail (geomDelays d (fuel + 1)) = true := by
        intro r hr
        exact ⟨[d], hr, by simp [geomDelays, initialSegment]⟩
      have hrec : ∀ r : Except FetchErr FetchResult × List Nat,
          r = fetchAux out cancelBackoff etag lm fuel (attempt + 1)
            (min (d * 2) maxRetryDelay) (waits ++ [d]) →
          ∃ tail, r.2 = waits ++ tail ∧
            initialSegment tail (geomDelays d (fuel + 1)) = true := by
        intro r hr
        obtain ⟨tail2, ht2, hseg2⟩ := fetchAux_waits out cancelBackoff etag lm fuel
          (attempt + 1) (min (d * 2) maxRetryDelay) (waits ++ [d]) (by omega)
        refine ⟨d :: tail2, ?_, ?_⟩
        · rw [hr, ht2]
          simp
        · simp [geomDelays, initialSegment, hseg2]
      cases hout : out attempt with
      | transportError ctxErr =>
        cases ctxErr with
        | true => exact hstep _ rfl
        | false => exact hrec _ rfl
      | response status etagH lmH parsed =>
        dsimp only
        by_cases h304 : status = 304
        · rw [if_pos h304]
          exact hstep _ rfl
        · rw [if_neg h304]
          by_cases h200 : status ≠ 200
          · rw [if_pos h200]
            by_cases h4xx : 400 ≤ status ∧ status < 500
            · rw [if_pos h4xx]
              exact hstep _ rfl
            · rw [if_neg h4xx]
              exact hrec _ rfl
          · rw [if_neg h200]
            cases parsed with
            | none => exact hrec _ rfl
            | some items => exact hstep _ rfl

theorem fetchAux_congr (out out2 : Nat → AttemptOutcome) (cancel cancel2 : Nat → Bool)
    (etag lm : Option String) : ∀ (fuel attempt d : Nat) (waits : List Nat),
    (∀ n, attempt ≤ n → n < attempt + fuel → out2 n = out n) →
    (∀ n, attempt ≤ n → n < attempt + fuel → cancel2 n = cancel n) →
    fetchAux out2 cancel2 etag lm fuel attempt d waits =
      fetchAux out cancel etag lm fuel attempt d waits
  | 0, attempt, d, waits, _, _ => rfl
  | fuel + 1, attempt, d, waits, hout, hcan => by
    have h1 : out2 attempt = out attempt := hout attempt (le_refl _) (by omega)
    have h2 : cancel2 attempt = cancel attempt := hcan attempt (le_refl _) (by omega)
    have ihout : ∀ n, attempt + 1 ≤ n → n < attempt + 1 + fuel → out2 n = out n :=
      fun n ha hb => hout n (by omega) (by omega)
    have ihcan : ∀ n, attempt + 1 ≤ n → n < attempt + 1 + fuel → cancel2 n = cancel n :=
      fun n ha hb => hcan n (by omega) (by omega)
    simp only [fetchAux, h1, h2]
    by_cases hcb : (decide (attempt > 0) && cancel attempt) = true
    · rw [if_pos hcb, if_pos hcb]
    · rw [if_neg hcb, if_neg hcb]
      cases hm : out attempt with
      | transportError ctxErr =>
        cases ctxErr with
        | true => rfl
        | false =>
          exact fetchAux_congr out out2 cancel cancel2 etag lm fuel (attempt + 1) _ _
            ihout ihcan
      | response status etagH lmH parsed =>
        dsimp only
        by_cases h304 : status = 304
        · rw [if_pos h304, if_pos h304]
        · rw [if_neg h304, if_neg h304]
          by_cases h200 : status ≠ 200
          · rw [if_pos h200, if_pos h200]
            by_cases h4xx : 400 ≤ status ∧ status < 500
            · rw [if_pos h4xx, if_pos h4xx]
            · rw [if_neg h4xx, if_neg h4xx]
              exact fetchAux_congr out out2 cancel cancel2 etag lm fuel (attempt + 1) _ _
                ihout ihcan
          · rw [if_neg h200, if_neg h200]
            cases parsed with
            | none =>
              exact fetchAux_congr out out2 cancel cancel2 etag lm fuel (attempt + 1) _ _
                ihout ihcan
            | some items => rfl

theorem fetch_waits_shape (out : Nat → AttemptOutcome) (cancel : Nat → Bool)
    (etag lm : Option String) (k : Nat) :
    ∃ tail, (fetchAux out cancel etag lm (k + 1) 0 initialRetryDelay []).2 = tail ∧
      initialSegment tail (geomDelays initialRetryDelay k) = true := by
  simp only [fetchAux]
  rw [if_neg (by simp)]
  cases hm : out 0 with
  | transportError ctxErr =>
    cases ctxErr with
    | true => exact ⟨[], by simp, by cases k <;> simp [initialSegment, geomDelays]⟩
    | false =>
      obtain ⟨tail, ht, hseg⟩ := fetchAux_waits out cancel etag lm k 1
        initialRetryDelay (if 0 > 0 then [] ++ [initialRetryDelay] else []) (by omega)
      refine ⟨tail, ?_, hseg⟩
      simpa using ht
  | response status etagH lmH parsed =>
    dsimp only
    by_cases h304 : status = 304
    · rw [if_pos h304]
      exact ⟨[], by simp, by cases k <;> simp [initialSegment, geomDelays]⟩
    · rw [if_neg h304]
      by_cases h200 : status ≠ 200
      · rw [if_pos h200]
        by_cases h4xx : 400 ≤ status ∧ status < 500
        · rw [if_pos h4xx]
          exact ⟨[], by simp, by cases k <;> simp [initialSegment, geomDelays]⟩
        · rw [if_neg h4xx]
          obtain ⟨tail, ht, hseg⟩ := fetchAux_waits out cancel etag lm k 1
            initialRetryDelay (if 0 > 0 then [] ++ [initialRetryDelay] else []) (by omega)
          refine ⟨tail, ?_, hseg⟩
          simpa using ht
      · rw [if_neg h200]
        cases parsed with
        | none =>
          obtain ⟨tail, ht, hseg⟩ := fetchAux_waits out cancel etag lm k 1
            initialRetryDelay (if 0 > 0 then [] ++ [initialRetryDelay] else []) (by omega)
          refine ⟨tail, ?_, hseg⟩
          simpa using ht
        | some items => exact ⟨[], by simp, by cases k <;> simp [initialSegment, geomDelays]⟩

theorem initialSegment_248 (t : List Nat) :
    initialSegment t [2, 4, 8] = true →
    t = [] ∨ t = [2] ∨ t = [2, 4] ∨ t = [2, 4, 8] := by
  match t with
  | [] => intro _; exact Or.inl rfl
  | [a] =>
    intro h
    simp [initialSegment] at h
    subst h; exact Or.inr (Or.inl rfl)
  | [a, b] =>
    intro h
    simp [initialSegment] at h
    obtain ⟨rfl, rfl⟩ := h
    exact Or.inr (Or.inr (Or.inl rfl))
  | [a, b, c] =>
    intro h
    simp [initialSegment] at h
    obtain ⟨rfl, rfl, rfl⟩ := h
    exact Or.inr (Or.inr (Or.inr rfl))
  | a :: b :: c :: d :: rest =>
    intro h
    simp [initialSegment] at h

/-! ## Claim C4 -/

/-- Attempt schedule whose first response is 429 and whose later attempts
would succeed. -/
def w4out : Nat → AttemptOutcome := fun n =>
  if n = 0 then .response 429 "" "" none
  else .response 200 "E" "L" (some [wItem1])

/-- C4 is false as stated: a 429 (and likewise 408) response falls in the
fetch loop's 400 ≤ status < 500 branch and is returned immediately with no
retry, although the very next attempt would have succeeded. -/
theorem fetch_429_not_retried :
    Fetch w4out (fun _ => false) none none = (.error (.permanentStatus 429), []) := by
  rfl

/-- C4 (amended): the fetch loop makes at most maxFetchRetries + 1 = 4
attempts (its result never depends on outcomes beyond attempt 3); the slept
backoffs are an initial run of 2 s, 4 s, 8 s (doubling from 2 s, capped at
maxRetryDelay = 30 s, a cap the three permitted retries never reach); every
4xx first response — including 408 and 429 — returns immediately with no
retry; a transport error recognized as context.Canceled/DeadlineExceeded is
never retried; and a 5xx first response is retried, succeeding on a parseable
200 second attempt after a single 2 s backoff. -/
theorem fetch_retry_policy (out : Nat → AttemptOutcome) (cancel : Nat → Bool)
    (etag lm : Option String) :
    (∀ (out2 : Nat → AttemptOutcome) (cancel2 : Nat → Bool),
      (∀ n, n ≤ maxFetchRetries → out2 n = out n) →
      (∀ n, n ≤ maxFetchRetries → cancel2 n = cancel n) →
      Fetch out2 cancel2 etag lm = Fetch out cancel etag lm) ∧
    ((Fetch out cancel etag lm).2 = [] ∨ (Fetch out cancel etag lm).2 = [2] ∨
      (Fetch out cancel etag lm).2 = [2, 4] ∨ (Fetch out cancel etag lm).2 = [2, 4, 8]) ∧
    (∀ s e l p, out 0 = .response s e l p → 400 ≤ s → s < 500 →
      Fetch out cancel etag lm = (.error (.permanentStatus s), [])) ∧
    (out 0 = .transportError true →
      Fetch out cancel etag lm = (.error .contextTransport, [])) ∧
    (∀ s e l p e2 l2 items, out 0 = .response s e l p → 500 ≤ s →
      out 1 = .response 200 e2 l2 (some items) → cancel 1 = false →
      Fetch out cancel etag lm =
        (.ok { feed := some items, newEtag := some e2, newLastModified := some l2 },
          [2])) := by
  refine ⟨?_, ?_, ?_, ?_, ?_⟩
  · intro out2 cancel2 h1 h2
    exact fetchAux_congr out out2 cancel cancel2 etag lm 4 0 initialRetryDelay []
      (fun n ha hb => h1 n (by simp [maxFetchRetries]; omega))
      (fun n ha hb => h2 n (by simp [maxFetchRetries]; omega))
  · obtain ⟨tail, ht, hseg⟩ := fetch_waits_shape out cancel etag lm 3
    have h248 : geomDelays initialRetryDelay 3 = [2, 4, 8] := by decide
    rw [h248] at hseg
    have ht2 : (Fetch out cancel etag lm).2 = tail := ht
    rw [ht2]
    exact initialSegment_248 tail hseg
  · intro s e l p h0 h4 h5
    show fetchAux out cancel etag lm (3 + 1) 0 initialRetryDelay [] =
      (.error (.permanentStatus s), [])
    simp only [fetchAux]
    rw [if_neg (by simp)]
    rw [h0]
    dsimp only
    rw [if_neg (by omega), if_pos (by omega), if_pos ⟨h4, h5⟩]
    simp
  · intro h0
    show fetchAux out cancel etag lm (3 + 1) 0 initialRetryDelay [] =
      (.error .contextTransport, [])
    simp only [fetchAux]
    rw [if_neg (by simp)]
    rw [h0]
    simp
  · intro s e l p e2 l2 items h0 h5 h1 hc1
    show fetchAux out cancel etag lm (3 + 1) 0 initialRetryDelay [] = _
    simp only [fetchAux]
    rw [if_neg (by simp)]
    rw [h0]
    dsimp only
    rw [if_neg (by omega), if_pos (by omega), if_neg (by omega)]
    have hstep : (if (0 : Nat) > 0 then [] ++ [initialRetryDelay] else ([] : List Nat)) = [] := by
      simp
    rw [hstep]
    have hd : (if (0 : Nat) > 0 then min (initialRetryDelay * 2) maxRetryDelay
        else initialRetryDelay) = initialRetryDelay := by simp
    rw [hd]
    show fetchAux out cancel etag lm (2 + 1) 1 initialRetryDelay [] = _
    simp only [fetchAux]
    rw [if_neg (by simp [hc1])]
    rw [h1]
    dsimp only
    rw [if_neg (by omega)]
    rw [if_neg (by omega)]
    simp [initialRetryDelay]

/-- Concrete 5xx-then-success schedule for the C4 witness. -/
def w4out2 : Nat → AttemptOutcome := fun n =>
  if n = 0 then .response 500 "" "" none
  else .response 200 "E" "L" (some [wItem1])

theorem fetch_retry_policy_witness :
    (Fetch w4out2 (fun _ => false) none none =
      Fetch w4out2 (fun _ => false) none none) ∧
    ((Fetch w4out2 (fun _ => false) none none).2 = [] ∨
      (Fetch w4out2 (fun _ => false) none none).2 = [2] ∨
      (Fetch w4out2 (fun _ => false) none none).2 = [2, 4] ∨
      (Fetch w4out2 (fun _ => false) none none).2 = [2, 4, 8]) ∧
    (Fetch w4out (fun _ => false) none none = (.error (.permanentStatus 429), [])) ∧
    (Fetch w4out2 (fun _ => false) none none =
      (.ok { feed := some [wItem1], newEtag := some "E", newLastModified := some "L" },
        [2])) :=
  ⟨(fetch_retry_policy w4out2 (fun _ => false) none none).1 w4out2 (fun _ => false)
      (fun n _ => rfl) (fun n _ => rfl),
   (fetch_retry_policy w4out2 (fun _ => false) none none).2.1,
   (fetch_retry_policy w4out (fun _ => false) none none).2.2.1 429 "" "" none rfl
      (by omega) (by omega),
   (fetch_retry_policy w4out2 (fun _ => false) none none).2.2.2.2 500 "" "" none "E" "L"
      [wItem1] rfl (by omega) rfl rfl⟩

/-! ## Claim C2 witness fixture -/

/-- A notifier whose every send fails. -/
def wSendFail : Item → Bool := fun _ => false

theorem processFeed_dispatchError_spec_witness :
    wFetch1.feed = some [wItem1] ∧
    (ProcessFeed wHash false 100 wFormat wSendFail true wStale wFetch1).outcome =
      .dispatchError wItem1 ∧
    (wSendFail wItem1 = false ∧
     (∀ d ∈ (ProcessFeed wHash false 100 wFormat wSendFail true wStale wFetch1).dispatched,
        wSendFail d = true) ∧
     (∃ pre post,
        (GetNewItems wHash [wItem1] (fun h => IsItemProcessed wStale h)).1 =
          pre ++ wItem1 :: post ∧
        (ProcessFeed wHash false 100 wFormat wSendFail true wStale wFetch1).dispatched =
          pre.filter (fun i => (wFormat i).isSome)) ∧
     ((ProcessFeed wHash false 100 wFormat wSendFail true wStale wFetch1).state =
       ((ProcessFeed wHash false 100 wFormat wSendFail true wStale
           wFetch1).dispatched.map (fun d => wHash (identifier d))).foldl
         AddProcessedItem wStale) ∧
     (ProcessFeed wHash false 100 wFormat wSendFail true wStale
        wFetch1).state.lastProcessedItemGUIDHash = wStale.lastProcessedItemGUIDHash ∧
     (ProcessFeed wHash false 100 wFormat wSendFail true wStale
        wFetch1).state.httpEtag = wStale.httpEtag ∧
     (ProcessFeed wHash false 100 wFormat wSendFail true wStale
        wFetch1).state.httpLastModified = wStale.httpLastModified ∧
     (ProcessFeed wHash false 100 wFormat wSendFail true wStale
        wFetch1).state.lastFetchedAt = wStale.lastFetchedAt) :=
  ⟨rfl, by decide,
   processFeed_dispatchError_spec wHash 100 wFormat wSendFail true wStale wFetch1
     [wItem1] wItem1 rfl (by decide)⟩

/-! ## Claim C6 -/

/-- C6: a 304 run is a pure frame update.  The fetcher echoes the request's
cache values back unchanged (returning feed = nil and no retries), and the
worker then dispatches nothing, advances last_fetched_at to the run's clock,
rewrites etag, last_modified and last_processed_item_hash with their stored
values (so all three are unchanged), and leaves processed_items untouched. -/
theorem notModified_frame :
    (∀ (out : Nat → AttemptOutcome) (cancel : Nat → Bool) (etag0 lm0 : Option String)
      (e l : String) (p : Option (List Item)), out 0 = .response 304 e l p →
      Fetch out cancel etag0 lm0 =
        (.ok { feed := none, newEtag := etag0, newLastModified := lm0 }, [])) ∧
    (∀ (hash : String → String) (dryRun : Bool) (now : Int)
      (format : Item → Option (List FormattedMessagePart)) (send : Item → Bool)
      (tokenOk : Bool) (st : FeedState) (fetchResult : FetchResult),
      fetchResult.feed = none →
      (ProcessFeed hash dryRun now format send tokenOk st fetchResult).dispatched = [] ∧
      (ProcessFeed hash dryRun now format send tokenOk st
        fetchResult).state.lastFetchedAt = some now ∧
      (ProcessFeed hash dryRun now format send tokenOk st
        fetchResult).state.httpEtag = st.httpEtag ∧
      (ProcessFeed hash dryRun now format send tokenOk st
        fetchResult).state.httpLastModified = st.httpLastModified ∧
      (ProcessFeed hash dryRun now format send tokenOk st
        fetchResult).state.lastProcessedItemGUIDHash = st.lastProcessedItemGUIDHash ∧
      (ProcessFeed hash dryRun now format send tokenOk st
        fetchResult).state.processedItems = st.processedItems) := by
  constructor
  · intro out cancel etag0 lm0 e l p h0
    show fetchAux out cancel etag0 lm0 (3 + 1) 0 initialRetryDelay [] = _
    simp only [fetchAux]
    rw [if_neg (by simp)]
    rw [h0]
    simp
  · intro hash dryRun now format send tokenOk st fetchResult h
    simp [ProcessFeed, h, UpdateFeedLastProcessed]

/-- Schedule answering 304 on the first attempt. -/
def w6out : Nat → AttemptOutcome := fun _ => .response 304 "hdrE" "hdrL" none

/-- Fetch result for a 304 as the worker receives it. -/
def wFetch304 : FetchResult :=
  { feed := none, newEtag := some "E0", newLastModified := none }

theorem notModified_frame_witness :
    (Fetch w6out (fun _ => false) (some "E0") (some "L0") =
      (.ok { feed := none, newEtag := some "E0", newLastModified := some "L0" }, [])) ∧
    ((ProcessFeed wHash false 100 wFormat wSendFail true wStale wFetch304).dispatched = [] ∧
     (ProcessFeed wHash false 100 wFormat wSendFail true wStale
        wFetch304).state.lastFetchedAt = some 100 ∧
     (ProcessFeed wHash false 100 wFormat wSendFail true wStale
        wFetch304).state.httpEtag = wStale.httpEtag ∧
     (ProcessFeed wHash false 100 wFormat wSendFail true wStale
        wFetch304).state.httpLastModified = wStale.httpLastModified ∧
     (ProcessFeed wHash false 100 wFormat wSendFail true wStale
        wFetch304).state.lastProcessedItemGUIDHash = wStale.lastProcessedItemGUIDHash ∧
     (ProcessFeed wHash false 100 wFormat wSendFail true wStale
        wFetch304).state.processedItems = wStale.processedItems) :=
  ⟨notModified_frame.1 w6out (fun _ => false) (some "E0") (some "L0") "hdrE" "hdrL"
      none rfl,
   notModified_frame.2 wHash false 100 wFormat wSendFail true wStale wFetch304 rfl⟩

/-! ## Claim C10 -/

/-- C10: on a 200 response the fetcher returns NewEtag and NewLastModified as
always-present values holding exactly the response's ETag and Last-Modified
headers — the empty string when the server omits one — and in every worker
run that reaches its final persistence step (no-new-items or success) the
feed row's etag and last_modified are overwritten with exactly those values,
so a 2xx response without cache headers replaces any previously stored values
with empty strings. -/
theorem fetch200_headers_persisted :
    (∀ (out : Nat → AttemptOutcome) (cancel : Nat → Bool) (etag0 lm0 : Option String)
      (e l : String) (items : List Item), out 0 = .response 200 e l (some items) →
      Fetch out cancel etag0 lm0 =
        (.ok { feed := some items, newEtag := some e, newLastModified := some l }, [])) ∧
    (∀ (hash : String → String) (dryRun : Bool) (now : Int)
      (format : Item → Option (List FormattedMessagePart)) (send : Item → Bool)
      (tokenOk : Bool) (st : FeedState) (fetchResult : FetchResult),
      ((ProcessFeed hash dryRun now format send tokenOk st fetchResult).outcome =
          .noNewItems ∨
       (ProcessFeed hash dryRun now format send tokenOk st fetchResult).outcome =
          .success) →
      (ProcessFeed hash dryRun now format send tokenOk st
        fetchResult).state.httpEtag = fetchResult.newEtag ∧
      (ProcessFeed hash dryRun now format send tokenOk st
        fetchResult).state.httpLastModified = fetchResult.newLastModified ∧
      (ProcessFeed hash dryRun now format send tokenOk st
        fetchResult).state.lastFetchedAt = some now) := by
  constructor
  · intro out cancel etag0 lm0 e l items h0
    show fetchAux out cancel etag0 lm0 (3 + 1) 0 initialRetryDelay [] = _
    simp only [fetchAux]
    rw [if_neg (by simp)]
    rw [h0]
    simp
  · intro hash dryRun now format send tokenOk st fetchResult hout
    cases hfeed : fetchResult.feed with
    | none => simp [ProcessFeed, hfeed] at hout
    | some items =>
      simp only [ProcessFeed, hfeed] at hout ⊢
      by_cases hnew : (GetNewItems hash items (fun h => IsItemProcessed st h)).1 = []
      · simp [hnew, UpdateFeedLastProcessed]
      · by_cases htok : tokenOk
        · rcases hloop : processItemsLoop hash dryRun format send
            (GetNewItems hash items (fun h => IsItemProcessed st h)).1 st [] "" with
            ⟨st2, disp, lastH2, failed⟩
          simp only [hnew, htok, Bool.not_true, Bool.false_eq_true, if_false] at hout ⊢
          cases failed with
          | some failedItem =>
            try rw [hloop] at hout
            simp at hout
          | none =>
            simp [UpdateFeedLastProcessed]
        · simp [hnew, htok] at hout

/-- Schedule answering 200 with empty ETag/Last-Modified headers. -/
def w10out : Nat → AttemptOutcome := fun _ => .response 200 "" "" (some [wItem1])

/-- Store row that has already processed wItem1. -/
def wSeenState : FeedState := { wStale with processedItems := ["hg"] }

/-- Fetch result of a 200 without cache headers. -/
def wFetchEmptyHdrs : FetchResult :=
  { feed := some [wItem1], newEtag := some "", newLastModified := some "" }

theorem fetch200_headers_persisted_witness :
    (Fetch w10out (fun _ => false) (some "OLD") (some "OLDL") =
      (.ok { feed := some [wItem1], newEtag := some "",
             newLastModified := some "" }, [])) ∧
    ((ProcessFeed wHash false 100 wFormat wSendFail true wSeenState
        wFetchEmptyHdrs).state.httpEtag = wFetchEmptyHdrs.newEtag ∧
     (ProcessFeed wHash false 100 wFormat wSendFail true wSeenState
        wFetchEmptyHdrs).state.httpLastModified = wFetchEmptyHdrs.newLastModified ∧
     (ProcessFeed wHash false 100 wFormat wSendFail true wSeenState
        wFetchEmptyHdrs).state.lastFetchedAt = some 100) :=
  ⟨fetch200_headers_persisted.1 w10out (fun _ => false) (some "OLD") (some "OLDL")
      "" "" [wItem1] rfl,
   fetch200_headers_persisted.2 wHash false 100 wFormat wSendFail true wSeenState
      wFetchEmptyHdrs (Or.inl (by decide))⟩

/-! ## FeedScheduler (internal/scheduler/scheduler.go lines 147-168) -/

/-- A heap entry: the feed's id and polling frequency, the modelled wall-time
one run of its task takes, and the entry's due time. -/
structure SchedTask where
  feedId : Nat
  frequencySeconds : Nat
  duration : Nat
  nextRun : Nat
deriving Repr, DecidableEq, Inhabited

/-- Scheduler state: the priority-queue entries (as a list; heap order only
affects pop order among simultaneously due tasks, not the resulting set) and
the in-flight runs as (feedId, finish time) pairs. -/
structure SchedState where
  queue : List SchedTask
  inflight : List (Nat × Nat)
deriving Repr, DecidableEq, Inhabited

/-- FeedScheduler.runPendingTasks at wall time `now`: every due entry
(nextRun ≤ now) is popped, its task is launched as a new concurrent run
(finishing at now + duration), and the entry is immediately reinserted with
nextRun = now + frequency — before the launched run completes. -/
def runPendingTasks (now : Nat) (st : SchedState) : SchedState :=
  { queue := st.queue.filter (fun t => !(t.nextRun ≤ now)) ++
      (st.queue.filter (fun t => t.nextRun ≤ now)).map
        (fun t => { t with nextRun := now + t.frequencySeconds })
    inflight := st.inflight ++
      (st.queue.filter (fun t => t.nextRun ≤ now)).map
        (fun t => (t.feedId, now + t.duration)) }

/-- Runs whose finish time has passed leave the in-flight set. -/
def completeRuns (now : Nat) (st : SchedState) : SchedState :=
  { st with inflight := st.inflight.filter (fun r => !(r.2 ≤ now)) }

/-- Number of queue entries for one feed. -/
def queueCount (f : Nat) (st : SchedState) : Nat :=
  (st.queue.filter (fun t => t.feedId = f)).length

/-- Number of in-flight runs of one feed. -/
def inflightCount (f : Nat) (st : SchedState) : Nat :=
  (st.inflight.filter (fun r => r.1 = f)).length

/-! ## Claim C9 -/

theorem length_filter_split (p q : α → Bool) (l : List α) :
    (l.filter (fun a => p a && q a)).length +
      (l.filter (fun a => p a && !q a)).length = (l.filter p).length := by
  induction l with
  | nil => rfl
  | cons x xs ih =>
    by_cases hp : p x = true
    · by_cases hq : q x = true
      · simp [List.filter, hp, hq]
        omega
      · simp only [Bool.not_eq_true] at hq
        simp [List.filter, hp, hq]
        omega
    · simp only [Bool.not_eq_true] at hp
      simp [List.filter, hp]
      exact ih
  
/-- A feed whose run takes 90 s but whose frequency is 60 s. -/
def w9task : SchedTask :=
  { feedId := 1, frequencySeconds := 60, duration := 90, nextRun := 0 }

/-- C9 is false as stated: with frequency 60 s and a 90 s task, the entry
popped at t = 0 is reinserted immediately with next_run_at = 60, so at t = 60
a second run of the same feed is launched while the first (finishing at
t = 90) is still in flight — two runs of feed 1 in flight at once. -/
theorem scheduler_two_inflight_counterexample :
    inflightCount 1
      (runPendingTasks 60 (completeRuns 60 (runPendingTasks 0
        { queue := [w9task], inflight := [] }))) = 2 := by decide

/-- C9 (amended): a task popped at time `now` is reinserted with
next_run_at = now + frequency regardless of how long its run takes (the
reinserted entry does not depend on the run's duration), and heap entries
never stack — each feed keeps exactly as many queue entries as before; but
because reinsertion happens at launch rather than completion, every due entry
launches a fresh run even when an earlier run of the same feed is still in
flight, so more than one run per feed can be in flight at a time. -/
theorem runPendingTasks_spec (now : Nat) (st : SchedState) :
    (∀ t ∈ st.queue, t.nextRun ≤ now →
      { t with nextRun := now + t.frequencySeconds } ∈ (runPendingTasks now st).queue) ∧
    (∀ f, queueCount f (runPendingTasks now st) = queueCount f st) ∧
    (∀ t ∈ st.queue, ¬ t.nextRun ≤ now → t ∈ (runPendingTasks now st).queue) ∧
    (∀ f, inflightCount f (runPendingTasks now st) = inflightCount f st +
      (st.queue.filter (fun t => t.feedId = f && t.nextRun ≤ now)).length) := by
  refine ⟨?_, ?_, ?_, ?_⟩
  · intro t ht hdue
    simp only [runPendingTasks, List.mem_append]
    right
    exact List.mem_map.mpr ⟨t, List.mem_filter.mpr ⟨ht, by simpa using hdue⟩, rfl⟩
  · intro f
    simp only [queueCount, runPendingTasks, List.filter_append, List.length_append,
      List.filter_map]
    rw [List.length_map]
    have hcomp : ((fun t : SchedTask => decide (t.feedId = f)) ∘
        (fun t => { t with nextRun := now + t.frequencySeconds })) =
        fun t : SchedTask => decide (t.feedId = f) := by
      funext t
      rfl
    rw [hcomp]
    rw [List.filter_filter, List.filter_filter]
    have := length_filter_split (fun t : SchedTask => decide (t.feedId = f))
      (fun t : SchedTask => decide (t.nextRun ≤ now)) st.queue
    simp only [Bool.and_comm] at this ⊢
    omega
  · intro t ht hnot
    simp only [runPendingTasks, List.mem_append]
    left
    exact List.mem_filter.mpr ⟨ht, by simpa using hnot⟩
  · intro f
    simp only [inflightCount, runPendingTasks, List.filter_append, List.length_append,
      List.filter_map]
    rw [List.length_map]
    have hcomp : ((fun r : Nat × Nat => decide (r.1 = f)) ∘
        (fun t : SchedTask => (t.feedId, now + t.duration))) =
        fun t : SchedTask => decide (t.feedId = f) := by
      funext t
      rfl
    rw [hcomp, List.filter_filter]

/-- A second feed, not yet due at t = 0. -/
def w9late : SchedTask :=
  { feedId := 2, frequencySeconds := 60, duration := 10, nextRun := 50 }

/-- Scheduler state for the C9 witness. -/
def w9st : SchedState := { queue := [w9task, w9late], inflight := [] }

theorem runPendingTasks_spec_witness :
    (w9task ∈ w9st.queue ∧ w9task.nextRun ≤ 0 ∧
      { w9task with nextRun := 0 + w9task.frequencySeconds } ∈
        (runPendingTasks 0 w9st).queue) ∧
    queueCount 1 (runPendingTasks 0 w9st) = queueCount 1 w9st ∧
    (w9late ∈ w9st.queue ∧ ¬ w9late.nextRun ≤ 0 ∧ w9late ∈ (runPendingTasks 0 w9st).queue) ∧
    inflightCount 1 (runPendingTasks 0 w9st) = inflightCount 1 w9st +
      (w9st.queue.filter (fun t => t.feedId = 1 && t.nextRun ≤ 0)).length :=
  ⟨⟨by decide, by decide, (runPendingTasks_spec 0 w9st).1 w9task (by decide) (by decide)⟩,
   (runPendingTasks_spec 0 w9st).2.1 1,
   ⟨by decide, by decide, (runPendingTasks_spec 0 w9st).2.2.1 w9late (by decide) (by decide)⟩,
   (runPendingTasks_spec 0 w9st).2.2.2 1⟩

/-! ## Telegram Client (internal/telegram/client.go) -/

def telegramMaxMessageLength : Nat := 4096

def globalMessagesPerSecond : Nat := 25

def chatMessagesPerSecond : Nat := 1

/-- Token-bucket parameters (rate.NewLimiter(limit, burst)). -/
structure LimiterParams where
  ratePerSecond : Nat
  burst : Nat
deriving Repr, DecidableEq

/-- NewClient's global bucket: rate.NewLimiter(25, 25*2). -/
def globalLimiterParams : LimiterParams :=
  { ratePerSecond := globalMessagesPerSecond, burst := globalMessagesPerSecond * 2 }

/-- getChatLimiter's per-chat bucket: rate.NewLimiter(1, 1*2). -/
def chatLimiterParams : LimiterParams :=
  { ratePerSecond := chatMessagesPerSecond, burst := chatMessagesPerSecond * 2 }

/-- Events observable during Client.Send, in order. -/
inductive SendEvent where
  | waitGlobal (ctxCancelled : Bool)
  | waitChat (ctxCancelled : Bool)
  | apiSend (part : FormattedMessagePart)
  | skipEmptyPart
deriving Repr, DecidableEq

/-- rate.Limiter.Wait, time-abstracted: under an uncancelled context the call
blocks until a token is available and returns nil; under a cancelled context
it returns the context's error. -/
def limiterWait (ctxCancelled : Bool) : Except Unit Unit :=
  if ctxCancelled then .error () else .ok ()

/-- The ways Client.Send fails. -/
inductive SendErr where
  | limiterWaitFailed
  | apiError (partIndex : Nat)
deriving Repr, DecidableEq

/-- The per-part loop of Client.Send (client.go lines 94-177).  Before each
part one Wait on the global limiter then one on the per-chat limiter, both
under `limiterCtxCancelled`; a part with neither photo, document nor text
consumes both tokens and is skipped; `apiOk` models bot.Send's outcome
(identical control flow for the photo/document/text variants); any failure
aborts the remaining parts with an error naming the part index. -/
def sendLoop (apiOk : FormattedMessagePart → Bool) (limiterCtxCancelled : Bool) :
    List FormattedMessagePart → Nat → List SendEvent →
      Except SendErr Unit × List SendEvent
  | [], _, evs => (.ok (), evs)
  | p :: rest, i, evs =>
    match limiterWait limiterCtxCancelled with
    | .error _ => (.error .limiterWaitFailed, evs ++ [.waitGlobal limiterCtxCancelled])
    | .ok _ =>
      match limiterWait limiterCtxCancelled with
      | .error _ => (.error .limiterWaitFailed,
          evs ++ [.waitGlobal limiterCtxCancelled, .waitChat limiterCtxCancelled])
      | .ok _ =>
        let evs2 := evs ++ [.waitGlobal limiterCtxCancelled,
          .waitChat limiterCtxCancelled]
        if p.photoURL != "" || p.documentURL != "" || p.text != "" then
          if apiOk p then
            sendLoop apiOk limiterCtxCancelled rest (i + 1) (evs2 ++ [.apiSend p])
          else (.error (.apiError i), evs2 ++ [.apiSend p])
        else sendLoop apiOk limiterCtxCancelled rest (i + 1) (evs2 ++ [.skipEmptyPart])

/-- Client.Send.  The caller passes a cancellable ctx, but the source builds
globalCtxLimiter := context.Background() (client.go line 91) and hands THAT
to both limiter Wait calls, so acquisition never observes
`callerCtxCancelled`. -/
def ClientSend (callerCtxCancelled : Bool) (apiOk : FormattedMessagePart → Bool)
    (parts : List FormattedMessagePart) : Except SendErr Unit × List SendEvent :=
  sendLoop apiOk false parts 0 []

/-- C3 is false as stated: a send whose caller context is already cancelled
before and during token acquisition still acquires both tokens under the
background context, delivers the part and returns success instead of
aborting with Canceled. -/
theorem clientSend_cancelled_counterexample :
    ClientSend true (fun _ => true) [wPart] =
      (.ok (), [.waitGlobal false, .waitChat false, .apiSend wPart]) := by
  rfl

theorem sendLoop_all_ok (apiOk : FormattedMessagePart → Bool) :
    ∀ (parts : List FormattedMessagePart) (i : Nat) (evs : List SendEvent),
    (∀ p ∈ parts, apiOk p = true) →
    sendLoop apiOk false parts i evs =
      (.ok (), evs ++ (parts.map (fun p =>
        [SendEvent.waitGlobal false, SendEvent.waitChat false] ++
        (if p.photoURL != "" || p.documentURL != "" || p.text != ""
         then [SendEvent.apiSend p] else [SendEvent.skipEmptyPart]))).flatten)
  | [], i, evs, _ => by simp [sendLoop]
  | p :: rest, i, evs, hok => by
    have hp : apiOk p = true := hok p (List.mem_cons_self p rest)
    have hrest : ∀ q ∈ rest, apiOk q = true := fun q hq => hok q (List.mem_cons_of_mem p hq)
    simp only [sendLoop, limiterWait, if_neg (by simp : ¬ (false = true))]
    by_cases hcls : (p.photoURL != "" || p.documentURL != "" || p.text != "") = true
    · rw [if_pos hcls, if_pos hp,
        sendLoop_all_ok apiOk rest (i + 1) _ hrest]
      have hcls2 : (¬p.photoURL = "" ∨ ¬p.documentURL = "") ∨ ¬p.text = "" := by
        simpa using hcls
      simp [hcls2]
    · rw [if_neg hcls,
        sendLoop_all_ok apiOk rest (i + 1) _ hrest]
      simp only [Bool.or_eq_true, not_or, Bool.not_eq_true, bne_eq_false_iff_eq] at hcls
      simp [hcls.1.1, hcls.1.2, hcls.2]

/-- C3 (amended): before each part Client.Send acquires one token from the
global bucket and then one from the per-chat bucket, blocking until granted;
but both Wait calls run under a fresh background context, so the result and
the event trace are entirely independent of the caller's context, and a
cancellation of that context during acquisition does not abort the send. -/
theorem clientSend_spec (callerCtxCancelled : Bool)
    (apiOk : FormattedMessagePart → Bool) (parts : List FormattedMessagePart) :
    (∀ c2 : Bool, ClientSend c2 apiOk parts = ClientSend callerCtxCancelled apiOk parts) ∧
    ((∀ p ∈ parts, apiOk p = true) →
      ClientSend callerCtxCancelled apiOk parts =
        (.ok (), (parts.map (fun p =>
          [SendEvent.waitGlobal false, SendEvent.waitChat false] ++
          (if p.photoURL != "" || p.documentURL != "" || p.text != ""
           then [SendEvent.apiSend p] else [SendEvent.skipEmptyPart]))).flatten)) := by
  constructor
  · intro c2
    rfl
  · intro hok
    have := sendLoop_all_ok apiOk parts 0 [] hok
    simpa [ClientSend] using this

theorem clientSend_spec_witness :
    (∀ c2 : Bool, ClientSend c2 (fun _ => true) [wPart] =
      ClientSend true (fun _ => true) [wPart]) ∧
    (∀ p ∈ [wPart], (fun _ : FormattedMessagePart => true) p = true) ∧
    ClientSend true (fun _ => true) [wPart] =
      (.ok (), ([wPart].map (fun p =>
        [SendEvent.waitGlobal false, SendEvent.waitChat false] ++
        (if p.photoURL != "" || p.documentURL != "" || p.text != ""
         then [SendEvent.apiSend p] else [SendEvent.skipEmptyPart]))).flatten) :=
  ⟨(clientSend_spec true (fun _ => true) [wPart]).1,
   by decide,
   (clientSend_spec true (fun _ => true) [wPart]).2 (by decide)⟩

/-! ## SplitMessage (internal/telegram/client.go lines 182-205) -/

/-- Consecutive rune chunks of at most telegramMaxMessageLength. -/
def chunkRunes (l : List Char) : List (List Char) :=
  if l.isEmpty then []
  else l.take telegramMaxMessageLength :: chunkRunes (l.drop telegramMaxMessageLength)
termination_by l.length
decreasing_by
  simp only [List.length_drop]
  rename_i hne
  have hl : l ≠ [] := by simpa using hne
  have := List.length_pos.mpr hl
  simp only [telegramMaxMessageLength]
  omega

/-- telegram.SplitMessage: if the BYTE length fits, one part; otherwise split
the rune sequence into consecutive parts of at most 4096 runes, each with the
same parse mode. -/
def SplitMessage (text parseMode : String) : List FormattedMessagePart :=
  if text.utf8ByteSize ≤ telegramMaxMessageLength then
    [{ text := text, parseMode := parseMode }]
  else
    (chunkRunes text.toList).map (fun c =>
      { text := String.mk c, parseMode := parseMode })

/-! ## DefaultFormatter.FormatItem (internal/formatter/formatter.go,
sanitizing revision, lines 247-397) -/

/-- A parsed text/template: the fragment of Go text/template the profiles
use — literal runs and {{.Field}} references resolved against the data map. -/
inductive TmplElem where
  | lit (s : String)
  | field (name : String)
deriving Repr, DecidableEq

/-- Template execution against the data bindings. -/
def renderTmpl (t : List TmplElem) (data : String → String) : String :=
  String.join (t.map (fun e => match e with | .lit s => s | .field n => data n))

/-- database.FormattingProfileConfig as FormatItem consumes it.  An unset Go
template string is `none`; `omitGenericTitleRegexMatch` is the compiled
OmitGenericTitleRegex's match function (`none` = empty pattern). -/
structure FormattingProfileConfig where
  titleTemplate : Option (List TmplElem) := none
  messageTemplate : Option (List TmplElem) := none
  hashtags : List String := []
  includeAuthor : Bool := false
  omitGenericTitleRegexMatch : Option (String → Bool) := none
  useTelegraphThresholdChars : Nat := 0
  replaceEmojiImagesWithAlt : Bool := false

/-- formatter.replaceEmojiImages: a placeholder in the source that returns
its input unchanged. -/
def replaceEmojiImages (s : String) : String := s

/-- tgbotapi.ModeHTML, the default parse mode. -/
def defaultParseMode : String := "HTML"

/-- DefaultFormatter.FormatItem.  `emojiSprint` stands for emoji.Sprint and
`sanitize` for telegramHTMLPolicy.Sanitize (the bluemonday policy built in
init(): only b, strong, i, em, u, s, strike, del, code, pre, span, tg-spoiler
and a[href] survive); `showDate` renders ItemDate.  The sanitizer runs on the
emoji-processed content BEFORE any message template executes, and the
template's output is not re-sanitized (the re-sanitize call in the source is
commented out); the Telegraph branch always falls through because
createTelegraphPost unconditionally returns an error, so the result is one
text part holding the whole message. -/
def FormatItem (emojiSprint sanitize : String → String) (showDate : Option Int → String)
    (feedUserTitle : Option String) (feedURL : String)
    (item : Item) (cfg : FormattingProfileConfig) : List FormattedMessagePart :=
  let title0 :=
    match cfg.omitGenericTitleRegexMatch with
    | some isMatch => if item.title ≠ "" then (if isMatch item.title then "" else item.title)
        else item.title
    | none => item.title
  let feedDisplayTitle :=
    match feedUserTitle with
    | some t => if t ≠ "" then t else feedURL
    | none => feedURL
  let data0 : String → String := fun n =>
    if n = "FeedTitle" then feedDisplayTitle
    else if n = "FeedURL" then feedURL
    else if n = "ItemTitle" then title0
    else if n = "ItemLink" then item.link
    else if n = "ItemContent" then item.content
    else if n = "ItemSummary" then item.description
    else if n = "ItemAuthor" then (match item.author with | some a => a | none => "")
    else if n = "ItemDate" then showDate item.publishedParsed
    else if n = "Hashtags" then String.intercalate " " cfg.hashtags
    else ""
  let finalTitle :=
    match cfg.titleTemplate with
    | some t => renderTmpl t data0
    | none => title0
  let content := if item.content = "" then item.description else item.content
  let contentWithEmojis := emojiSprint content
  let sanitized0 := sanitize contentWithEmojis
  let sanitizedContent :=
    if cfg.replaceEmojiImagesWithAlt then replaceEmojiImages sanitized0 else sanitized0
  let data1 : String → String := fun n =>
    if n = "ItemContent" then sanitizedContent else data0 n
  let messageBody :=
    match cfg.messageTemplate with
    | some t => renderTmpl t data1
    | none =>
      (if finalTitle ≠ "" then "<b>" ++ escapeHTML finalTitle ++ "</b>\n" else "") ++
      sanitizedContent ++
      (if item.link ≠ "" then "\n<a href=\"" ++ escapeHTML item.link ++ "\">Read more</a>"
       else "")
  let authorSuffix :=
    match item.author with
    | some a =>
      if cfg.includeAuthor && decide (a ≠ "") && !(strContains messageBody a) then
        "\n\n<i>Author: " ++ escapeHTML a ++ "</i>"
      else ""
    | none => ""
  let hasHashtagsAlready := cfg.hashtags.any (fun tag =>
    strContains messageBody ("#" ++ replaceSpaces tag))
  let tagsSuffix :=
    if cfg.hashtags.isEmpty then ""
    else if hasHashtagsAlready then ""
    else "\n\n" ++ String.join (cfg.hashtags.map (fun tag =>
      let cleanTag := replaceSpaces (trimHashPrefixChar tag)
      if cleanTag ≠ "" then "#" ++ cleanTag ++ " " else ""))
  let finalMessage := trimSpace (messageBody ++ authorSuffix ++ tagsSuffix)
  [{ text := finalMessage, parseMode := defaultParseMode }]

theorem str_append_empty (s : String) : s ++ "" = s := by
  cases s with
  | mk data => show String.mk (data ++ []) = String.mk data
               simp

theorem str_empty_append (s : String) : "" ++ s = s := by
  cases s with
  | mk data => show String.mk ([] ++ data) = String.mk data
               simp

/-- Shared shape lemma: with no message template, no title, no link, no
author and no hashtags, FormatItem returns one HTML part whose body is
exactly the sanitized-after-emoji content. -/
theorem formatItem_plain_body (emojiSprint sanitize : String → String)
    (showDate : Option Int → String) (feedUserTitle : Option String) (feedURL : String)
    (item : Item) (cfg : FormattingProfileConfig)
    (hmt : cfg.messageTemplate = none) (htt : cfg.titleTemplate = none)
    (hht : cfg.hashtags = []) (hau : item.author = none)
    (hti : item.title = "") (hlk : item.link = "") :
    FormatItem emojiSprint sanitize showDate feedUserTitle feedURL item cfg =
      [{ text := trimSpace (sanitize (emojiSprint
           (if item.content = "" then item.description else item.content))),
         parseMode := defaultParseMode }] := by
  cases homit : cfg.omitGenericTitleRegexMatch with
  | none =>
    simp [FormatItem, hmt, htt, hht, hau, hti, hlk, homit, replaceEmojiImages,
      str_append_empty, str_empty_append]
  | some isMatch =>
    simp [FormatItem, hmt, htt, hht, hau, hti, hlk, homit, replaceEmojiImages,
      str_append_empty, str_empty_append]

/-! ## Claim C7 -/

/-- A 5000-character body. -/
def longContent : String := String.mk (List.replicate 5000 'a')

/-- Item whose formatted message exceeds the 4096-character platform limit. -/
def w7item : Item :=
  { guid := "g7", link := "", title := "", content := longContent, description := "",
    author := none, publishedParsed := none, updatedParsed := none }

/-- A profile with every option unset. -/
def emptyCfg : FormattingProfileConfig := {}

theorem dropWhile_replicate_a (n : Nat) :
    (List.replicate n 'a').dropWhile isSpaceChar = List.replicate n 'a' := by
  cases n with
  | zero => rfl
  | succ k =>
    rw [List.replicate_succ, List.dropWhile_cons]
    simp [show isSpaceChar 'a' = false from by decide]

theorem trimSpace_longContent : trimSpace longContent = longContent := by
  have h1 : longContent.toList = List.replicate 5000 'a' := rfl
  rw [trimSpace, h1, dropWhile_replicate_a, List.reverse_replicate,
    dropWhile_replicate_a, List.reverse_replicate]
  rfl

theorem longContent_length : longContent.length = 5000 := by
  have : longContent.length = (List.replicate 5000 'a').length := rfl
  rw [this, List.length_replicate]

/-- C7 is false on the code: FormatItem returns the whole 5000-character
message as ONE text part (a comment in the source defers splitting to
telegram.SplitMessage, but no code path ever calls SplitMessage), and
Client.Send hands that oversized part to the API verbatim. -/
theorem formatItem_oversize_not_split :
    FormatItem id id (fun _ => "") none "http://feed" w7item emptyCfg =
      [{ text := longContent, parseMode := "HTML" }] ∧
    4096 < longContent.length ∧
    ClientSend false (fun _ => true) [{ text := longContent, parseMode := "HTML" }] =
      (.ok (), [.waitGlobal false, .waitChat false,
        .apiSend { text := longContent, parseMode := "HTML" }]) := by
  have hcne : ¬ (w7item.content = "") := by
    intro h
    have h5 : w7item.content.length = 5000 := longContent_length
    rw [h] at h5
    exact absurd h5 (by decide)
  refine ⟨?_, ?_, ?_⟩
  · rw [formatItem_plain_body id id (fun _ => "") none "http://feed" w7item emptyCfg
      rfl rfl rfl rfl rfl rfl]
    rw [if_neg hcne]
    simp only [id_eq]
    rw [show w7item.content = longContent from rfl, trimSpace_longContent]
    rfl
  · rw [longContent_length]
    omega
  · have hne : (longContent != "") = true := by
      simp only [bne_iff_ne, ne_eq]
      exact hcne
    show sendLoop (fun _ => true) false [{ text := longContent, parseMode := "HTML" }]
      0 [] = _
    simp [sendLoop, limiterWait, hne]

/-! ## Claim C8 -/

/-- Item for the sanitization-order counterexample. -/
def w8item : Item :=
  { guid := "g8", link := "", title := "", content := "body", description := "",
    author := none, publishedParsed := none, updatedParsed := none }

/-- Profile whose message_template is the literal `<script>hack</script>`. -/
def w8cfg : FormattingProfileConfig :=
  { messageTemplate := some [.lit "<script>hack</script>"] }

/-- C8 is false as stated: even under a sanitizer that deletes everything
(the constant-empty function, whose output never contains a script tag), a
user-authored message_template puts a disallowed `<script>` tag into the
returned part — the sanitizer runs BEFORE template expansion and the
template's output is not re-sanitized (the re-sanitize call at formatter.go
line 343 is commented out). -/
theorem formatItem_template_escapes_policy :
    FormatItem id (fun _ => "") (fun _ => "") none "u" w8item w8cfg =
      [{ text := "<script>hack</script>", parseMode := "HTML" }] ∧
    strContains "<script>hack</script>" "<script" = true :=
  ⟨rfl, by decide⟩

/-- C8 (amended): the sanitization policy is applied after emoji-shortcode
replacement but BEFORE template expansion: FormatItem with emoji pass e and
sanitizer s equals FormatItem whose sanitizer is s ∘ e applied to the raw
content, and whenever no message_template is configured the returned part's
body is exactly the sanitized-after-emoji content (so without a template no
disallowed tag survives the policy); a message_template's output, however, is
inserted without re-sanitization. -/
theorem formatItem_sanitize_order (emojiSprint sanitize : String → String)
    (showDate : Option Int → String) (feedUserTitle : Option String) (feedURL : String)
    (item : Item) (cfg : FormattingProfileConfig) :
    FormatItem emojiSprint sanitize showDate feedUserTitle feedURL item cfg =
      FormatItem id (sanitize ∘ emojiSprint) showDate feedUserTitle feedURL item cfg ∧
    (cfg.messageTemplate = none → cfg.titleTemplate = none → cfg.hashtags = [] →
      item.author = none → item.title = "" → item.link = "" →
      FormatItem emojiSprint sanitize showDate feedUserTitle feedURL item cfg =
        [{ text := trimSpace (sanitize (emojiSprint
             (if item.content = "" then item.description else item.content))),
           parseMode := defaultParseMode }]) :=
  ⟨rfl, formatItem_plain_body emojiSprint sanitize showDate feedUserTitle feedURL item cfg⟩

/-- Item for the C8 witness. -/
def w8witem : Item :=
  { guid := "gw", link := "", title := "", content := "x", description := "",
    author := none, publishedParsed := none, updatedParsed := none }

/-- Emoji pass stand-in for the C8 witness. -/
def wEmo (s : String) : String := s ++ "!"

/-- Sanitizer stand-in for the C8 witness. -/
def wSan (s : String) : String := s ++ "?"

theorem formatItem_sanitize_order_witness :
    (FormatItem wEmo wSan (fun _ => "") none "u" w8witem {} =
      FormatItem id (wSan ∘ wEmo) (fun _ => "") none "u" w8witem {}) ∧
    ({} : FormattingProfileConfig).messageTemplate = none ∧
    ({} : FormattingProfileConfig).titleTemplate = none ∧
    ({} : FormattingProfileConfig).hashtags = [] ∧
    w8witem.author = none ∧ w8witem.title = "" ∧ w8witem.link = "" ∧
    FormatItem wEmo wSan (fun _ => "") none "u" w8witem {} =
      [{ text := trimSpace (wSan (wEmo
           (if w8witem.content = "" then w8witem.description else w8witem.content))),
         parseMode := defaultParseMode }] :=
  ⟨(formatItem_sanitize_order wEmo wSan (fun _ => "") none "u" w8witem {}).1,
   rfl, rfl, rfl, rfl, rfl, rfl,
   (formatItem_sanitize_order wEmo wSan (fun _ => "") none "u" w8witem {}).2
     rfl rfl rfl rfl rfl rfl⟩

end RSSBot
